import Mathlib

/-!
# Verification of the `csr_service` review-pipeline core

Shallow embedding of the review pipeline of the `csr_service` repository:
JSON recovery (`engine/parser.py`), per-observation validation
(`engine/parser.py`), the policy engine (`policy/policy.py`), the standards
retriever (`standards/retriever.py`) and the multi-rule review orchestration
(`engine/pipeline.py`).

Modelling conventions:
* Python `dict`s decoded from JSON are association lists with unique keys
  (duplicate keys in a JSON text overwrite, as `json.loads` does).
* Python `float` values are modelled as rationals (`ℚ`).  No theorem below
  depends on binary rounding: the only arithmetic performed on these values
  by the code is clamping and order comparison of decimal literals.
* Python `int` and `bool` are distinct JSON constructors; `isinstance(x, int)`
  is true for both, which the embedding mirrors where the code relies on it.
* Exceptions that escape a function are modelled with `Except String`; a
  caught-and-recovered failure is `Option.none` / a default, exactly where the
  code catches it.
-/

namespace CsrService

/-- A decoded JSON value, as produced by Python's `json.loads`.
`obj` carries a unique-key association list in first-insertion order
(later duplicate keys in the source text overwrite the stored value, as a
Python `dict` does).  Python parses JSON `true`/`false` to `bool`, which is
kept distinct from `int` because the code's `isinstance` checks see both. -/
inductive Json where
  | null : Json
  | bool : Bool → Json
  | int : Int → Json
  | float : ℚ → Json
  | str : String → Json
  | arr : List Json → Json
  | obj : List (String × Json) → Json

/-- Python-`dict` lookup (`d.get(k)`): first (unique) matching key. -/
def dictGet (kvs : List (String × Json)) (k : String) : Option Json :=
  match kvs with
  | [] => none
  | (k', v) :: rest => if k' = k then some v else dictGet rest k

/-- Python-`dict` insertion (`d[k] = v`): overwrite in place if the key is
present (keeping its position), else append. -/
def dictSet (kvs : List (String × Json)) (k : String) (v : Json) :
    List (String × Json) :=
  match kvs with
  | [] => [(k, v)]
  | (k', v') :: rest =>
    if k' = k then (k', v) :: rest else (k', v') :: dictSet rest k v

/-- The four whitespace characters recognised by the JSON grammar (and by
Python's `json` module). -/
def isJsonWs (c : Char) : Bool :=
  c = ' ' || c = '\t' || c = '\n' || c = '\r'

/-- Drop leading JSON whitespace. -/
def skipWs : List Char → List Char
  | [] => []
  | c :: cs => if isJsonWs c then skipWs cs else c :: cs

/-- Hexadecimal digit value. -/
def hexVal (c : Char) : Option Nat :=
  if '0' ≤ c ∧ c ≤ '9' then some (c.toNat - 48)
  else if 'a' ≤ c ∧ c ≤ 'f' then some (c.toNat - 87)
  else if 'A' ≤ c ∧ c ≤ 'F' then some (c.toNat - 55)
  else none

/-- Body of a JSON string literal, after the opening quote.  Returns the
decoded characters and the input remaining after the closing quote.
`json.loads` (strict mode) rejects raw control characters; `\uXXXX` escapes
are decoded, combining valid surrogate pairs.  (Python additionally accepts
lone surrogates, which Lean `Char` cannot represent; no input considered in
this development contains them.) -/
def parseStrBody (s : List Char) (acc : List Char) :
    Option (String × List Char) :=
  match s with
  | [] => none
  | '"' :: rest => some (String.mk acc.reverse, rest)
  | '\\' :: e :: rest =>
    match e with
    | '"' => parseStrBody rest ('"' :: acc)
    | '\\' => parseStrBody rest ('\\' :: acc)
    | '/' => parseStrBody rest ('/' :: acc)
    | 'b' => parseStrBody rest ('\x08' :: acc)
    | 'f' => parseStrBody rest ('\x0c' :: acc)
    | 'n' => parseStrBody rest ('\n' :: acc)
    | 'r' => parseStrBody rest ('\x0d' :: acc)
    | 't' => parseStrBody rest ('\t' :: acc)
    | 'u' =>
      match rest with
      | h1 :: h2 :: h3 :: h4 :: rest2 =>
        match hexVal h1, hexVal h2, hexVal h3, hexVal h4 with
        | some a, some b, some c, some d =>
          let n := ((a * 16 + b) * 16 + c) * 16 + d
          if 0xD800 ≤ n ∧ n < 0xDC00 then
            match rest2 with
            | '\\' :: 'u' :: k1 :: k2 :: k3 :: k4 :: rest3 =>
              match hexVal k1, hexVal k2, hexVal k3, hexVal k4 with
              | some a2, some b2, some c2, some d2 =>
                let m := ((a2 * 16 + b2) * 16 + c2) * 16 + d2
                if 0xDC00 ≤ m ∧ m < 0xE000 then
                  parseStrBody rest3
                    (Char.ofNat (0x10000 + (n - 0xD800) * 0x400 + (m - 0xDC00))
                      :: acc)
                else none
              | _, _, _, _ => none
            | _ => none
          else if 0xDC00 ≤ n ∧ n < 0xE000 then none
          else parseStrBody rest2 (Char.ofNat n :: acc)
        | _, _, _, _ => none
      | _ => none
    | _ => none
  | c :: rest => if c.toNat < 32 then none else parseStrBody rest (c :: acc)

/-- Split off a maximal run of decimal digits. -/
def spanDigits : List Char → (List Char × List Char)
  | [] => ([], [])
  | c :: cs =>
    if c.isDigit then
      let (ds, rest) := spanDigits cs
      (c :: ds, rest)
    else ([], c :: cs)

/-- Numeric value of a list of decimal digits. -/
def digitsToNat (ds : List Char) : Nat :=
  ds.foldl (fun a c => a * 10 + (c.toNat - 48)) 0

/-- Fraction/exponent tail of a JSON number, following Python `json`'s number
regex `(-?(?:0|[1-9]\d*))(\.\d+)?([eE][-+]?\d+)?`.  A literal without
fraction or exponent decodes to a Python `int`, every other form to a
`float` (modelled exactly as a rational; the code never does arithmetic on
these values beyond clamping and comparison). -/
def numberTail (neg : Bool) (intDs : List Char) (s2 : List Char) :
    Option (Json × List Char) :=
  let (fracDs, s3) :=
    match s2 with
    | '.' :: rest =>
      (match spanDigits rest with
       | ([], _) => (([] : List Char), s2)
       | (ds, r) => (ds, r))
    | _ => ([], s2)
  let (hasExp, expNeg, expDs, s4) :=
    match s3 with
    | 'e' :: '+' :: rest =>
      (match spanDigits rest with
       | ([], _) => (false, false, ([] : List Char), s3)
       | (ds, r) => (true, false, ds, r))
    | 'e' :: '-' :: rest =>
      (match spanDigits rest with
       | ([], _) => (false, false, ([] : List Char), s3)
       | (ds, r) => (true, true, ds, r))
    | 'e' :: rest =>
      (match spanDigits rest with
       | ([], _) => (false, false, ([] : List Char), s3)
       | (ds, r) => (true, false, ds, r))
    | 'E' :: '+' :: rest =>
      (match spanDigits rest with
       | ([], _) => (false, false, ([] : List Char), s3)
       | (ds, r) => (true, false, ds, r))
    | 'E' :: '-' :: rest =>
      (match spanDigits rest with
       | ([], _) => (false, false, ([] : List Char), s3)
       | (ds, r) => (true, true, ds, r))
    | 'E' :: rest =>
      (match spanDigits rest with
       | ([], _) => (false, false, ([] : List Char), s3)
       | (ds, r) => (true, false, ds, r))
    | _ => (false, false, [], s3)
  let sign : Int := if neg then -1 else 1
  if fracDs = [] ∧ hasExp = false then
    some (Json.int (sign * (digitsToNat intDs : Int)), s3)
  else
    -- value = sign * (int.frac) * 10^exp, built as one exact fraction
    -- (`mkRat`, unlike `ℚ`'s arithmetic operations, evaluates by reduction)
    let k := fracDs.length
    let base : Int :=
      sign * ((digitsToNat intDs * 10 ^ k + digitsToNat fracDs : Nat) : Int)
    let eN := digitsToNat expDs
    let q : ℚ :=
      if expNeg then mkRat base (10 ^ k * 10 ^ eN)
      else mkRat (base * (10 : Int) ^ eN) (10 ^ k)
    some (Json.float q, s4)

/-- A JSON number token. -/
def parseNumber (s : List Char) : Option (Json × List Char) :=
  let (neg, s1) := match s with
                   | '-' :: rest => (true, rest)
                   | _ => (false, s)
  match s1 with
  | '0' :: rest => numberTail neg ['0'] rest
  | c :: _ =>
    if c.isDigit then
      match spanDigits s1 with
      | (ds, rest) => numberTail neg ds rest
    else none
  | [] => none

/-- Comma-separated array elements, then `]`.  The element grammar is
supplied as a function so that the whole parser is structurally recursive on
its fuel. -/
def parseElemsWith (pv : List Char → Option (Json × List Char)) :
    Nat → List Char → Option (List Json × List Char)
  | 0, _ => none
  | fuel + 1, s =>
    match pv s with
    | none => none
    | some (v, rest) =>
      match skipWs rest with
      | ',' :: rest2 =>
        (match parseElemsWith pv fuel rest2 with
         | some (xs, rest3) => some (v :: xs, rest3)
         | none => none)
      | ']' :: rest2 => some ([v], rest2)
      | _ => none

/-- Comma-separated object members, then `}`.  Duplicate keys overwrite as in
a Python `dict`. -/
def parseMembersWith (pv : List Char → Option (Json × List Char)) :
    Nat → List Char → List (String × Json) →
    Option (List (String × Json) × List Char)
  | 0, _, _ => none
  | fuel + 1, s, acc =>
    match skipWs s with
    | '"' :: rest =>
      (match parseStrBody rest [] with
       | none => none
       | some (key, rest2) =>
         match skipWs rest2 with
         | ':' :: rest3 =>
           (match pv rest3 with
            | none => none
            | some (v, rest4) =>
              let acc2 := dictSet acc key v
              match skipWs rest4 with
              | ',' :: rest5 => parseMembersWith pv fuel rest5 acc2
              | '\x7d' :: rest5 => some (acc2, rest5)
              | _ => none)
         | _ => none)
    | _ => none

/-- One JSON value (leading whitespace allowed), returning the remaining
input.  Fuel-indexed recursion; `jsonLoads` supplies ample fuel (nesting
depth is bounded by the input length). -/
def parseValue : Nat → List Char → Option (Json × List Char)
  | 0, _ => none
  | fuel + 1, s =>
    match skipWs s with
    | 'n' :: 'u' :: 'l' :: 'l' :: rest => some (Json.null, rest)
    | 't' :: 'r' :: 'u' :: 'e' :: rest => some (Json.bool true, rest)
    | 'f' :: 'a' :: 'l' :: 's' :: 'e' :: rest => some (Json.bool false, rest)
    | '"' :: rest =>
      (match parseStrBody rest [] with
       | some (str, rest2) => some (Json.str str, rest2)
       | none => none)
    | '[' :: rest =>
      (match skipWs rest with
       | ']' :: rest2 => some (Json.arr [], rest2)
       | _ =>
         match parseElemsWith (fun cs => parseValue fuel cs)
             (rest.length + 1) rest with
         | some (xs, rest2) => some (Json.arr xs, rest2)
         | none => none)
    | '\x7b' :: rest =>
      (match skipWs rest with
       | '\x7d' :: rest2 => some (Json.obj [], rest2)
       | _ =>
         match parseMembersWith (fun cs => parseValue fuel cs)
             (rest.length + 1) rest [] with
         | some (kvs, rest2) => some (Json.obj kvs, rest2)
         | none => none)
    | cs => parseNumber cs

/-- Model of Python `json.loads`: parse one JSON document, requiring only
trailing whitespace after it ("Extra data" otherwise).  (Python's nonstandard
`NaN`/`Infinity` extensions are outside this model; no input considered in
this development uses them.) -/
def jsonLoads (raw : String) : Option Json :=
  let cs := raw.toList
  match parseValue (2 * cs.length + 2) cs with
  | some (v, rest) => if skipWs rest = [] then some v else none
  | none => none

/-- Python `str`-whitespace (the characters stripped by `str.strip()` and
matched by `\s` over ASCII text). -/
def isPyWs (c : Char) : Bool :=
  c = ' ' || c = '\t' || c = '\n' || c = '\r' || c = '\x0b' || c = '\x0c'

/-- Python `str.strip()` on a character list. -/
def pyStripChars (cs : List Char) : List Char :=
  ((cs.dropWhile isPyWs).reverse.dropWhile isPyWs).reverse

/-- Python `str.strip()`. -/
def pyStrip (s : String) : String :=
  String.mk (pyStripChars s.toList)

/-! ## Output extractor (`engine/parser.py`, `extract_json`)

Three strategies in order: direct `json.loads`, fenced-code-block
(`re.search(r"```(?:json)?\s*\n?(.*?)```", raw, re.DOTALL)` on the stripped
first capture group), and brace extraction
(`re.search(r"\{.*\}", raw, re.DOTALL)`, i.e. the substring from the first
opening brace to the last closing brace).  Each strategy catches its own
parse failure and falls through; `None` if all fail. -/

/-- Does `lit` occur literally at the head of `s`? -/
def hasLit : List Char → List Char → Bool
  | [], _ => true
  | _ :: _, [] => false
  | p :: ps, c :: cs => p = c && hasLit ps cs

/-- All positions at which a triple backtick starts (overlapping included,
as `re` scans every start position). -/
def tbPositions : List Char → Nat → List Nat
  | [], _ => []
  | c :: cs, i =>
    (if hasLit ['\x60', '\x60', '\x60'] (c :: cs) then [i] else []) ++
      tbPositions cs (i + 1)

/-- Skip the optional literal `json` tag of the fence regex. -/
def skipJsonTag (cs : List Char) (p : Nat) : Nat :=
  if hasLit ['j', 's', 'o', 'n'] (cs.drop p) then p + 4 else p

/-- Length of the leading `\s`-run. -/
def wsRun : List Char → Nat
  | [] => 0
  | c :: cs => if isPyWs c then wsRun cs + 1 else 0

/-- Skip the `\s*\n?` part of the fence regex (the regex's whitespace run
cannot overlap either backtick delimiter, and the capture group is stripped
afterwards, so consuming the maximal run is equivalent). -/
def skipPyWsFrom (cs : List Char) (p : Nat) : Nat :=
  p + wsRun (cs.drop p)

/-- `cs[a:b]`. -/
def slice (cs : List Char) (a b : Nat) : List Char :=
  (cs.drop a).take (b - a)

/-- The first capture group of `re.search(r"```(?:json)?\s*\n?(.*?)```")`:
from the leftmost fence start that has a closing fence, lazily up to the
next fence. -/
def fenceExtract (cs : List Char) : Option (List Char) :=
  let ps := tbPositions cs 0
  (ps.filterMap (fun p =>
    let inner := skipPyWsFrom cs (skipJsonTag cs (p + 3))
    match (ps.filter (fun q => inner ≤ q)).head? with
    | some q => some (slice cs inner q)
    | none => none)).head?

/-- The match of the greedy `re.search(r"\{.*\}", raw, re.DOTALL)`: the
substring from the first `\x7b` to the last `\x7d`, when the former precedes
the latter. -/
def braceExtract (cs : List Char) : Option (List Char) :=
  let lastClose :=
    match cs.reverse.findIdx? (fun c => c = '\x7d') with
    | some r => some (cs.length - 1 - r)
    | none => none
  match cs.findIdx? (fun c => c = '\x7b'), lastClose with
  | some i, some j => if i < j then some (slice cs i (j + 1)) else none
  | _, _ => none

/-- Strategy 2: parse the stripped interior of the first fenced block. -/
def fenceParse (raw : String) : Option Json :=
  match fenceExtract raw.toList with
  | some cap => jsonLoads (String.mk (pyStripChars cap))
  | none => none

/-- Strategy 3: parse the first-`{`-to-last-`}` substring. -/
def braceParse (raw : String) : Option Json :=
  match braceExtract raw.toList with
  | some sub => jsonLoads (String.mk sub)
  | none => none

/-- `extract_json` (parser.py:32-55): the three strategies in order, first
success wins, `None` when all fail. -/
def extract_json (raw : String) : Option Json :=
  match jsonLoads raw with
  | some v => some v
  | none =>
    match fenceParse raw with
    | some v => some v
    | none => braceParse raw

/-! ## Observation validation (`engine/parser.py`, `validate_observation`)

One candidate `dict` from the extracted `observations` array is sanitised
field by field into an `Observation` or rejected (`None`).  The whole body is
wrapped in `try/except`, so a `pydantic` `ValidationError` from the final
`Observation.model_validate` also yields `None`. -/

def VALID_SEVERITIES : List String := ["info", "warning", "violation"]

def VALID_CATEGORIES : List String :=
  ["clarity", "accuracy", "structure", "accessibility", "pedagogy",
   "compliance", "other"]

/-- The response-schema record (`schemas/response.py`, `Observation`).
`confidence` is a Python float in `[0,1]`, modelled as `ℚ`; `span` is
`list[int] | None`.  `id` is assigned by the validator (a random `uuid4`
fragment in the code, modelled as an opaque constant since nothing in the
specification's claims depends on its value). -/
structure Observation where
  id : String
  span : Option (List Int)
  severity : String
  category : String
  standard_ref : String
  message : String
  suggested_fix : Option String
  rationale : Option String
  standard_excerpt : Option String
  confidence : ℚ
deriving DecidableEq, Repr

/-- Stand-in for `uuid.uuid4().hex[:12]`. -/
def freshId : String := "0123456789ab"

/-- Numeric reading used by `isinstance(confidence, (int, float))` followed
by `float(confidence)`: Python `bool` is an `int` subclass, so `True`/`False`
count as `1.0`/`0.0`; strings, `None`, lists and dicts are non-numeric. -/
def jsonToNum : Json → Option ℚ
  | Json.int n => some (n : ℚ)
  | Json.float q => some q
  | Json.bool b => some (if b then 1 else 0)
  | _ => none

/-- Integer reading used by `isinstance(x, int)` on span elements (again,
`bool` is an `int` subclass; floats are not `int`s). -/
def jsonAsInt : Json → Option Int
  | Json.int n => some n
  | Json.bool b => some (if b then 1 else 0)
  | _ => none

/-- Python truthiness of a decoded JSON value (`if not obs_data.get(...)`).-/
def jsonTruthy : Json → Bool
  | Json.null => false
  | Json.bool b => b
  | Json.int n => n ≠ 0
  | Json.float q => q ≠ 0
  | Json.str s => s ≠ ""
  | Json.arr xs => ¬ xs.isEmpty
  | Json.obj kvs => ¬ kvs.isEmpty

/-- `d.get(k)` where both a missing key and an explicit JSON `null` read as
Python `None`. -/
def getNonNull (d : List (String × Json)) (k : String) : Option Json :=
  match dictGet d k with
  | some Json.null => none
  | some v => some v
  | none => none

/-- parser.py:62-67 — `confidence = obs_data.get("confidence", 0.0)`;
non-numeric values fall back to `0.5`; the result is clamped into `[0,1]`. -/
def clampedConfidence (d : List (String × Json)) : ℚ :=
  let confRaw := (dictGet d "confidence").getD (Json.float 0)
  let conf := match jsonToNum confRaw with
              | some q => q
              | none => mkRat 1 2
  max 0 (min 1 conf)

/-- parser.py:69-72 — a *present* severity outside the valid set (including
any non-string value, which is never in the set) is overwritten with
`"info"`; but when the key is *missing*, `obs_data.get("severity", "info")`
reads the valid default and the overwrite branch never runs, so nothing is
written back and the required `severity` field makes
`Observation.model_validate` reject the whole candidate (`none` here). -/
def validatedSeverity (d : List (String × Json)) : Option String :=
  match dictGet d "severity" with
  | none => none
  | some (Json.str s) => some (if s ∈ VALID_SEVERITIES then s else "info")
  | some _ => some "info"

/-- parser.py:74-77 — same for `category` with `"other"`: a present invalid
value is overwritten, a missing key is never written back and the required
field rejects the candidate. -/
def validatedCategory (d : List (String × Json)) : Option String :=
  match dictGet d "category" with
  | none => none
  | some (Json.str s) => some (if s ∈ VALID_CATEGORIES then s else "other")
  | some _ => some "other"

/-- parser.py:79-90 — a present span survives only as a two-element list of
(Python) ints with `0 ≤ start < end ≤ content_length`; every other shape is
nullified.  (`bool` elements pass the `isinstance` check and are read as
`0`/`1`.) -/
def validatedSpan (j : Json) (contentLength : Int) : Option (List Int) :=
  match j with
  | Json.arr [x, y] =>
    (match jsonAsInt x, jsonAsInt y with
     | some a, some b =>
       if 0 ≤ a ∧ a < b ∧ b ≤ contentLength then some [a, b] else none
     | _, _ => none)
  | _ => none

/-- The final span value of a candidate: absent/`null` and nullified spans
both end as `None`. -/
def spanValue (d : List (String × Json)) (contentLength : Int) :
    Option (List Int) :=
  match getNonNull d "span" with
  | none => none
  | some j => validatedSpan j contentLength

/-- An optional string field of the `Observation` model: `model_validate`
accepts a missing key, `null`, or a string, and rejects anything else
(`pydantic` v2 does not coerce to `str`).  `none` here means the whole
candidate is rejected. -/
def optStrField (d : List (String × Json)) (k : String) :
    Option (Option String) :=
  match dictGet d k with
  | none => some none
  | some Json.null => some none
  | some (Json.str s) => some (some s)
  | some _ => none

/-- `validate_observation` (parser.py:58-107).  Field sanitisation in source
order; rejection (`None`) happens for an unknown/non-string `standard_ref`,
a falsy `message`, or a value `Observation.model_validate` rejects: a
candidate missing its `severity`, `category` or `standard_ref` key (required
fields that the sanitiser never writes back for missing keys), a non-string
`message`, or non-string optional text fields.  A *missing* `standard_ref`
is rejected on either path the code takes: the `""` default fails the
`known_refs` test, and were `""` a known ref, `model_validate` would still
reject the absent required key. -/
def validateObservation (d : List (String × Json)) (contentLength : Int)
    (knownRefs : List String) : Option Observation :=
  match validatedSeverity d, validatedCategory d with
  | some severity, some category =>
    (match dictGet d "standard_ref" with
     | some (Json.str ref) =>
       if ref ∈ knownRefs then
         if (match dictGet d "message" with
             | some j => jsonTruthy j
             | none => false) then
           match dictGet d "message" with
           | some (Json.str msg) =>
             (match optStrField d "suggested_fix", optStrField d "rationale",
                 optStrField d "standard_excerpt" with
              | some sf, some ra, some se =>
                some { id := freshId,
                       span := spanValue d contentLength,
                       severity := severity,
                       category := category,
                       standard_ref := ref,
                       message := msg,
                       suggested_fix := sf,
                       rationale := ra,
                       standard_excerpt := se,
                       confidence := clampedConfidence d }
              | _, _, _ => none)
           | _ => none
         else none
       else none
     | _ => none)
  | _, _ => none

/-- `parse_model_output` (parser.py:110-128).  `extract_json` may hand back
any JSON value; the code immediately calls `data.get(...)` on it, which
raises `AttributeError` for a non-`dict` (modelled as `Except.error`). -/
def parse_model_output (raw : String) (contentLength : Int)
    (knownRefs : List String) : Except String (List Observation) :=
  match extract_json raw with
  | none => Except.ok []
  | some (Json.obj data) =>
    (match (dictGet data "observations").getD (Json.arr []) with
     | Json.arr rawObs =>
       Except.ok (rawObs.filterMap (fun it =>
         match it with
         | Json.obj objData => validateObservation objData contentLength knownRefs
         | _ => none))
     | _ => Except.ok [])
  | some _ =>
    Except.error "AttributeError: parsed JSON value has no attribute get"

/-! ## Policy engine (`policy/policy.py`)

Pure batch transformations over validated observations.  The Python code
mutates observation records in place; the embedding is the equivalent pure
rewriting.  Configuration (`config.py`: `RetrievalConfig`,
`ThresholdsConfig`, `DefaultsConfig`) is an external, already-parsed object
per the specification; its code defaults are reproduced in
`defaultPolicyConfig`. -/

/-- `PolicyConfig` — per-strictness retrieval breadth, per-strictness
violation thresholds, and policy defaults. -/
structure PolicyConfig where
  k_low : Nat
  k_medium : Nat
  k_high : Nat
  violation_low : ℚ
  violation_medium : ℚ
  violation_high : ℚ
  min_confidence : ℚ
  max_observations : Nat
deriving DecidableEq, Repr

/-- The code defaults from `config.py` (0.85/0.75/0.70 thresholds, 0.55
min-confidence, 25 max-observations, k = 6/10/14). -/
def defaultPolicyConfig : PolicyConfig :=
  { k_low := 6, k_medium := 10, k_high := 14,
    violation_low := mkRat 85 100, violation_medium := mkRat 75 100,
    violation_high := mkRat 70 100,
    min_confidence := mkRat 55 100, max_observations := 25 }

/-- `SEVERITY_ORDER.get(s, 2)` (policy.py:17). -/
def severityOrder (s : String) : Nat :=
  if s = "violation" then 0 else if s = "warning" then 1 else 2

/-- `SEVERITY_DOWNGRADE.get(s)` (policy.py:18): `"info"` maps to `None` in
the dict, and `.get` also returns `None` for unknown keys, so both read back
as `none`. -/
def severityDowngrade (s : String) : Option String :=
  if s = "violation" then some "warning"
  else if s = "warning" then some "info"
  else none

/-- `confidence_gate` (policy.py:21-33): keep observations at or above the
threshold; downgrade the rest one severity step, dropping what was already
`"info"`. -/
def confidence_gate (observations : List Observation) (minConfidence : ℚ) :
    List Observation :=
  observations.filterMap (fun obs =>
    if minConfidence ≤ obs.confidence then some obs
    else
      match severityDowngrade obs.severity with
      | none => none
      | some s => some { obs with severity := s })

/-- `thresholds.by_strictness.get(strictness, 0.75)` (policy.py:40). -/
def thresholdFor (cfg : PolicyConfig) (strictness : String) : ℚ :=
  if strictness = "low" then cfg.violation_low
  else if strictness = "medium" then cfg.violation_medium
  else if strictness = "high" then cfg.violation_high
  else mkRat 75 100

/-- `strictness_bias` (policy.py:36-44): a violation below the strictness
threshold becomes a warning. -/
def strictness_bias (observations : List Observation) (strictness : String)
    (cfg : PolicyConfig) : List Observation :=
  observations.map (fun obs =>
    if obs.severity = "violation" ∧ obs.confidence < thresholdFor cfg strictness
    then { obs with severity := "warning" }
    else obs)

/-- The dict key of `deduplicate` (policy.py:50):
`(tuple(obs.span) if obs.span else None, obs.standard_ref)`.  Python
truthiness makes an *empty-list* span fall into the same key as an absent
span. -/
def dedupKey (obs : Observation) : Option (List Int) × String :=
  (match obs.span with
   | some l => if l.isEmpty then none else some l
   | none => none,
   obs.standard_ref)

/-- One step of `deduplicate`'s dict building: `seen[key]` is replaced only
by a strictly greater confidence (ties keep the incumbent), keeping its
insertion position; a new key is appended. -/
def dedupInsert
    (seen : List ((Option (List Int) × String) × Observation))
    (obs : Observation) :
    List ((Option (List Int) × String) × Observation) :=
  if seen.any (fun kv => kv.1 = dedupKey obs) then
    seen.map (fun kv =>
      if kv.1 = dedupKey obs ∧ kv.2.confidence < obs.confidence
      then (kv.1, obs) else kv)
  else seen ++ [(dedupKey obs, obs)]

/-- `deduplicate` (policy.py:47-56): insertion-ordered dict of best
observations per key, then `list(seen.values())`. -/
def deduplicate (observations : List Observation) : List Observation :=
  (observations.foldl dedupInsert []).map (fun kv => kv.2)

/-- Strict comparison on the sort key
`(SEVERITY_ORDER.get(severity, 2), -confidence)` (policy.py:60). -/
def sortKeyLt (a b : Observation) : Bool :=
  severityOrder a.severity < severityOrder b.severity ||
    (severityOrder a.severity = severityOrder b.severity &&
      b.confidence < a.confidence)

/-- Stable insertion of one observation: it goes after every element it does
not strictly precede, which is precisely the stable (Timsort) placement. -/
def sortedInsert (obs : Observation) : List Observation → List Observation
  | [] => [obs]
  | b :: l => if sortKeyLt obs b then obs :: b :: l else b :: sortedInsert obs l

/-- `sort_observations` (policy.py:59-60): Python's stable `sorted` by
`(severity rank, -confidence)`; a stable insertion sort computes the same
(unique) stable ordering. -/
def sort_observations (observations : List Observation) : List Observation :=
  observations.foldl (fun acc o => sortedInsert o acc) []

/-- `apply_policy` (policy.py:63-77): gate, bias, dedup, sort, truncate; the
`None` parameter defaults come from `policy_config.defaults`. -/
def apply_policy (observations : List Observation) (strictness : String)
    (minConfidence : Option ℚ) (maxObservations : Option Nat)
    (cfg : PolicyConfig) : List Observation :=
  let minC := minConfidence.getD cfg.min_confidence
  let maxO := maxObservations.getD cfg.max_observations
  (sort_observations
    (deduplicate
      (strictness_bias (confidence_gate observations minC) strictness cfg))).take
    maxO

/-- Grouping key written exactly as the specification's words for the
deduplication claim describe it: the pair `(span, standard_ref)`, with only
*absent* spans identified.  Used solely to compare the specified grouping
with the implementation's `dedupKey`. -/
def dedupKeySpec (obs : Observation) : Option (List Int) × String :=
  (obs.span, obs.standard_ref)

/-- `deduplicate` re-run with the specification's grouping key (refinement
comparison only). -/
def dedupInsertSpec
    (seen : List ((Option (List Int) × String) × Observation))
    (obs : Observation) :
    List ((Option (List Int) × String) × Observation) :=
  if seen.any (fun kv => kv.1 = dedupKeySpec obs) then
    seen.map (fun kv =>
      if kv.1 = dedupKeySpec obs ∧ kv.2.confidence < obs.confidence
      then (kv.1, obs) else kv)
  else seen ++ [(dedupKeySpec obs, obs)]

/-- The deduplication described by the specification's sentence (grouping by
the exact `(span, standard_ref)` pair). -/
def deduplicateSpec (observations : List Observation) : List Observation :=
  (observations.foldl dedupInsertSpec []).map (fun kv => kv.2)

/-- Invariant of `deduplicate`'s dict-building fold: keys are distinct and
match their observation; every processed observation's key is represented;
and each stored observation is, within its key group, strictly above every
earlier occurrence and at least every later one. -/
def DedupInv (processed : List Observation)
    (acc : List ((Option (List Int) × String) × Observation)) : Prop :=
  acc.Pairwise (fun x y => x.1 ≠ y.1) ∧
  (∀ kv ∈ acc, kv.1 = dedupKey kv.2) ∧
  (∀ p ∈ processed, ∃ kv ∈ acc, kv.1 = dedupKey p) ∧
  (∀ kv ∈ acc, ∃ pre post, processed = pre ++ kv.2 :: post ∧
    (∀ p ∈ pre, dedupKey p = dedupKey kv.2 → p.confidence < kv.2.confidence) ∧
    (∀ q ∈ post, dedupKey q = dedupKey kv.2 → q.confidence ≤ kv.2.confidence))

/-! ## Standards retriever (`standards/retriever.py`)

`__init__` fits a TF-IDF index over the rule texts; `retrieve` ranks every
rule by cosine similarity against the vectorised content and returns
`self.rules[i] for i in np.argsort(scores)[::-1][:k]`.

The TF-IDF weights and cosine similarities are IEEE-754 floats, so the
numeric scoring is not shallowly embeddable; the score vector returned by
`cosine_similarity(query_vec, tfidf_matrix).flatten()` is abstracted as a
function `scoresOf : String → List ℚ` carried by the retriever model.  Every
structural theorem below holds for *all* score functions, hence for the real
one; the only pointwise fact ever used is that two rules with identical rule
text have identical tf-idf rows and therefore exactly equal scores (and that
an all-stop-word query — e.g. the empty string — vectorises to zero, making
every cosine score exactly 0.0).

What `fit_transform` can raise *is* modelled: scikit-learn's
`CountVectorizer._count_vocab` raises `ValueError("empty vocabulary ...")`
when no document contributes a token — in particular for an empty corpus,
i.e. an empty rule list. -/

structure StandardRule where
  standard_ref : String
  title : String
  body : String
  tags : List String
  severity_default : String
deriving DecidableEq, Repr

structure StandardsSet where
  standards_set : String
  name : String
  version : String
  rules : List StandardRule
deriving DecidableEq, Repr

/-- `_rule_text` (retriever.py:34-38): title, body, and (if non-empty) the
space-joined tags, joined by spaces. -/
def ruleText (r : StandardRule) : String :=
  let parts := [r.title, r.body] ++
    (if r.tags.isEmpty then [] else [String.intercalate " " r.tags])
  String.intercalate " " parts

/-- A character of a `\w` token (ASCII reading of the default
`token_pattern=r"(?u)\b\w\w+\b"`). -/
def isWordChar (c : Char) : Bool :=
  c.isAlphanum || c = '_'

/-- Lowercased maximal `\w`-runs of length at least two (scikit-learn's
default tokenizer). -/
def wordTokens : List Char → List Char → List String
  | [], cur => if cur.length ≥ 2 then [String.mk cur.reverse] else []
  | c :: rest, cur =>
    if isWordChar c then wordTokens rest (c.toLower :: cur)
    else
      (if cur.length ≥ 2 then [String.mk cur.reverse] else []) ++
        wordTokens rest []

/-- Model of scikit-learn's `ENGLISH_STOP_WORDS` (`stop_words="english"`).
The embedding lists the common members; no theorem in this development
depends on the exact contents of the list — it only feeds the
empty-vocabulary check, whose decisive case (an empty corpus) is
independent of it. -/
def ENGLISH_STOP_WORDS : List String :=
  ["a", "about", "above", "after", "again", "against", "all", "am", "an",
   "and", "any", "are", "as", "at", "be", "because", "been", "before",
   "being", "below", "between", "both", "but", "by", "can", "cannot",
   "could", "did", "do", "does", "doing", "down", "during", "each", "few",
   "for", "from", "further", "had", "has", "have", "having", "he", "her",
   "here", "hers", "him", "his", "how", "i", "if", "in", "into", "is", "it",
   "its", "itself", "me", "more", "most", "my", "no", "nor", "not", "of",
   "off", "on", "once", "only", "or", "other", "our", "ours", "out", "over",
   "own", "same", "she", "should", "so", "some", "such", "than", "that",
   "the", "their", "theirs", "them", "then", "there", "these", "they",
   "this", "those", "through", "to", "too", "under", "until", "up", "very",
   "was", "we", "were", "what", "when", "where", "which", "while", "who",
   "whom", "why", "with", "would", "you", "your", "yours"]

/-- Adjacent-pair bigrams (`ngram_range=(1, 2)`), formed after stop-word
removal as scikit-learn does. -/
def bigramsOf : List String → List String
  | a :: b :: rest => (a ++ " " ++ b) :: bigramsOf (b :: rest)
  | _ => []

/-- The fitted vocabulary: all unigrams and bigrams of all documents, minus
stop words.  Only emptiness of this set is consumed by the model. -/
def buildVocabulary (corpus : List String) : List String :=
  let docsTokens := corpus.map (fun doc =>
    (wordTokens doc.toList []).filter (fun t => t ∉ ENGLISH_STOP_WORDS))
  ((docsTokens.map (fun ts => ts ++ bigramsOf ts)).flatten).eraseDups

/-- The retriever state after a successful `__init__`: the owned rule list
and the (abstracted) cosine-similarity scoring. -/
structure StandardsRetriever where
  rules : List StandardRule
  scoresOf : String → List ℚ

/-- `StandardsRetriever.__init__` (retriever.py:24-32):
`fit_transform` raises `ValueError` on an empty vocabulary — in particular
whenever the rule list itself is empty. -/
def retrieverInit (ss : StandardsSet) (scoresOf : String → List ℚ) :
    Except String StandardsRetriever :=
  if (buildVocabulary (ss.rules.map ruleText)).isEmpty then
    Except.error
      "ValueError: empty vocabulary; perhaps the documents only contain stop words"
  else Except.ok { rules := ss.rules, scoresOf := scoresOf }

/-- Score of index `i` (out-of-range reads 0; never reached when the score
vector has one entry per rule). -/
def scoreAt (scores : List ℚ) (i : Nat) : ℚ :=
  scores.getD i 0

/-- Insert index `i` into an ascending run of indices: stop before the first
index with a strictly greater score, so equal scores keep earlier-inserted
indices first. -/
def argInsert (scores : List ℚ) (i : Nat) : List Nat → List Nat
  | [] => [i]
  | j :: l =>
    if scoreAt scores i < scoreAt scores j then i :: j :: l
    else j :: argInsert scores i l

/-- `np.argsort(scores)` with the default `kind='quicksort'` (introsort):
indices in ascending score order.  numpy does *not* guarantee a tie order
for this kind — only `kind='stable'` does — so any executable model must
pin one; this model pins the stable order (ties by original index).  No
theorem below relies on the pinned tie order except at a two-element score
vector (`retrieve_tie_order_counterexample`), where numpy's introsort
provably runs its insertion-sort base case, which is stable, so the model
and the program agree there; the general ranking theorem uses only the
score-sortedness and length of the result, which every `np.argsort` kind
guarantees. -/
def argsortAsc (scores : List ℚ) : List Nat :=
  (List.range scores.length).foldl (fun acc i => argInsert scores i acc) []

/-- `retrieval.k_by_strictness.get(strictness, 10)` (retriever.py:43). -/
def kForStrictness (cfg : PolicyConfig) (strictness : String) : Nat :=
  if strictness = "low" then cfg.k_low
  else if strictness = "medium" then cfg.k_medium
  else if strictness = "high" then cfg.k_high
  else 10

/-- `np.argsort(scores)[::-1][:k]` (retriever.py:48). -/
def topIndices (scores : List ℚ) (k : Nat) : List Nat :=
  ((argsortAsc scores).reverse).take k

/-- Placeholder rule for the (never reached) out-of-range index read. -/
def defaultStandardRule : StandardRule :=
  { standard_ref := "", title := "", body := "", tags := [],
    severity_default := "warning" }

/-- `StandardsRetriever.retrieve` (retriever.py:40-50). -/
def StandardsRetriever.retrieve (rt : StandardsRetriever) (content : String)
    (strictness : String) (cfg : PolicyConfig) : List StandardRule :=
  let k := min (kForStrictness cfg strictness) rt.rules.length
  (topIndices (rt.scoresOf content) k).map
    (fun i => rt.rules.getD i defaultStandardRule)

/-! ## Review pipeline, multi-rule mode (`engine/pipeline.py`, `run_review`)

The orchestration is embedded with its external collaborators as
parameters, following §6 of the specification: the retrieved rules stand in
for `retriever.retrieve(request.content, request.strictness)`, and the model
invocation outcome (`generate` succeeding with raw text plus usage, or
failing) is the `modelResult` argument — the prompt strings influence only
the model text, which that argument already fixes.  Wall-clock latency is
environmental and modelled as 0.  An exception escaping `run_review` itself
is `Except.error`. -/

structure Usage where
  input_tokens : Nat
  output_tokens : Nat
deriving DecidableEq, Repr

structure Error where
  code : String
  message : String
deriving DecidableEq, Repr

structure Meta where
  request_id : String
  standards_set : String
  strictness : String
  policy_version : String
  model_id : String
  latency_ms : Int
  usage : Usage
deriving DecidableEq, Repr

structure ReviewOptions where
  return_rationale : Bool
  return_excerpts : Bool
  max_observations : Nat
  min_confidence : ℚ
deriving DecidableEq, Repr

structure ReviewRequest where
  request_id : Option String
  content : String
  standards_set : String
  strictness : String
  options : ReviewOptions
deriving DecidableEq, Repr

structure ReviewResponse where
  observations : List Observation
  meta : Meta
  errors : List Error
deriving DecidableEq, Repr

/-- Substring containment of `key` in `s` (Python `key in s` for strings). -/
def strContains (s : List Char) (key : List Char) : Bool :=
  match s with
  | [] => key.isEmpty
  | _ :: rest => hasLit key s || strContains rest key

/-- Python's `key in parsed` on a decoded JSON value: key lookup on a dict,
element equality on a list, substring test on a string, `TypeError` on
non-iterables. -/
def pythonContains (j : Json) (key : String) : Except String Bool :=
  match j with
  | Json.obj kvs => Except.ok (dictGet kvs key).isSome
  | Json.arr xs =>
    Except.ok (xs.any (fun x =>
      match x with
      | Json.str s => s = key
      | _ => false))
  | Json.str s => Except.ok (strContains s.toList key.toList)
  | _ => Except.error "TypeError: argument of type is not iterable"

/-- The parse-failure error entry (pipeline.py:148-153). -/
def parseFailureError : Error :=
  { code := "MODEL_PARSE_FAILURE",
    message := "Model returned output but no valid observations could be extracted" }

/-- Assemble the `Meta` record (pipeline.py meta construction). -/
def mkMeta (request : ReviewRequest) (policyVersion modelId : String)
    (usage : Usage) : Meta :=
  { request_id := request.request_id.getD "",
    standards_set := request.standards_set,
    strictness := request.strictness,
    policy_version := policyVersion,
    model_id := modelId,
    latency_ms := 0,
    usage := usage }

/-- pipeline.py:145-153 — after a successful model call, when extraction
plus validation produced nothing although the reply was non-blank, re-run
the extractor and append `MODEL_PARSE_FAILURE` unless a recognisable
`observations` key is present (`"observations" not in parsed`). -/
def parseFailureErrors (rawOutput : String)
    (observations : List Observation) : Except String (List Error) :=
  if observations.isEmpty ∧ pyStrip rawOutput ≠ "" then
    match extract_json rawOutput with
    | none => Except.ok [parseFailureError]
    | some parsed =>
      (match pythonContains parsed "observations" with
       | Except.error e => Except.error e
       | Except.ok b => Except.ok (if b then [] else [parseFailureError]))
  else Except.ok []

/-- `run_review` in multi-rule mode (pipeline.py:99-192, with
`settings.single_rule_mode` false).  `modelResult` is the outcome of
`model_client.generate`; `rules` the retrieved rules. -/
def runReviewMulti (request : ReviewRequest) (rules : List StandardRule)
    (modelResult : Except String (String × Usage)) (cfg : PolicyConfig)
    (policyVersion modelId : String) : Except String ReviewResponse :=
  let knownRefs := rules.map (fun r => r.standard_ref)
  match modelResult with
  | Except.error e =>
    Except.ok
      { observations := [],
        meta := mkMeta request policyVersion modelId
          { input_tokens := 0, output_tokens := 0 },
        errors := [{ code := "MODEL_FAILURE", message := e }] }
  | Except.ok (rawOutput, usage) =>
    match parse_model_output rawOutput (request.content.length : Int)
        knownRefs with
    | Except.error err => Except.error err
    | Except.ok observations =>
      match parseFailureErrors rawOutput observations with
      | Except.error e => Except.error e
      | Except.ok errors =>
        let obs2 := apply_policy observations request.strictness
          (some request.options.min_confidence)
          (some request.options.max_observations) cfg
        let obs3 := if request.options.return_rationale then obs2
          else obs2.map (fun o => { o with rationale := none })
        let obs4 := if request.options.return_excerpts then obs3
          else obs3.map (fun o => { o with standard_excerpt := none })
        Except.ok
          { observations := obs4,
            meta := mkMeta request policyVersion modelId usage,
            errors := errors }

/-! ## Concrete fixtures

Inputs used to evaluate the definitions at specific points (mirroring the
repository's own test fixtures where possible). -/

/-- A fully valid candidate dict (cf. `tests/test_parser.py`). -/
def dValid : List (String × Json) :=
  [("span", Json.arr [Json.int 0, Json.int 10]),
   ("severity", Json.str "warning"),
   ("category", Json.str "clarity"),
   ("standard_ref", Json.str "R-1"),
   ("message", Json.str "Issue found"),
   ("confidence", Json.float (mkRat 8 10))]

/-- The observation `validate_observation` produces for `dValid`. -/
def obsValid : Observation :=
  { id := freshId, span := some [0, 10], severity := "warning",
    category := "clarity", standard_ref := "R-1", message := "Issue found",
    suggested_fix := none, rationale := none, standard_excerpt := none,
    confidence := mkRat 8 10 }

/-- An otherwise complete candidate with no `confidence` key at all. -/
def dMissingConf : List (String × Json) :=
  [("severity", Json.str "info"), ("category", Json.str "other"),
   ("standard_ref", Json.str "R-1"), ("message", Json.str "hi")]

/-- The observation `validate_observation` produces for `dMissingConf`. -/
def obsMissingConf : Observation :=
  { id := freshId, span := none, severity := "info", category := "other",
    standard_ref := "R-1", message := "hi", suggested_fix := none,
    rationale := none, standard_excerpt := none, confidence := 0 }

/-- `dValid` with `confidence: true` (a JSON boolean). -/
def dBoolConf : List (String × Json) :=
  dictSet dValid "confidence" (Json.bool true)

/-- The observation `validate_observation` produces for `dBoolConf`. -/
def obsBoolConf : Observation :=
  { obsValid with confidence := 1 }

/-- `dValid` with an out-of-range span (cf.
`test_invalid_span_nullified`). -/
def dBadSpan : List (String × Json) :=
  dictSet dValid "span" (Json.arr [Json.int 50, Json.int 200])

/-- A policy-layer observation (cf. `_obs` in `tests/test_policy.py`). -/
def obsPolicy (sev : String) (conf : ℚ) (span : Option (List Int))
    (ref : String) (msg : String) : Observation :=
  { id := "x", span := span, severity := sev, category := "other",
    standard_ref := ref, message := msg, suggested_fix := none,
    rationale := none, standard_excerpt := none, confidence := conf }

/-- An observation whose span is the *empty list* (permitted by the
`list[int] | None` schema, and falsy in Python). -/
def obsEmptySpan : Observation :=
  obsPolicy "warning" (mkRat 1 2) (some []) "R-1" "first"

/-- An observation with an absent span and the same `standard_ref`. -/
def obsNoSpan : Observation :=
  obsPolicy "warning" (mkRat 2 5) none "R-1" "second"

/-- A gated/biased/deduped/sorted/truncated singleton batch. -/
def obsSteady : Observation :=
  obsPolicy "warning" (mkRat 8 10) none "R-1" "issue"

/-- An empty standards set. -/
def emptyStandardsSet : StandardsSet :=
  { standards_set := "empty", name := "", version := "1.0", rules := [] }

/-- Two rules with *identical* rule text (`_rule_text` uses only title,
body and tags, not `standard_ref`), hence identical tf-idf rows and exactly
equal cosine scores against every query. -/
def ruleDupA : StandardRule :=
  { standard_ref := "A", title := "Duplicate rule",
    body := "Shared body text", tags := [], severity_default := "warning" }

def ruleDupB : StandardRule :=
  { standard_ref := "B", title := "Duplicate rule",
    body := "Shared body text", tags := [], severity_default := "warning" }

def ssTie : StandardsSet :=
  { standards_set := "tie", name := "", version := "1.0",
    rules := [ruleDupA, ruleDupB] }

/-- The score vector `cosine_similarity` actually yields for `ssTie` on the
empty query: the empty content vectorises to the zero vector, so both
cosine scores are exactly `0.0` (and the two identical rows would receive
equal scores against *any* query). -/
def tieScores : String → List ℚ := fun _ => [0, 0]

/-- The retriever `__init__` builds for `ssTie`. -/
def rtTie : StandardsRetriever :=
  { rules := [ruleDupA, ruleDupB], scoresOf := tieScores }

/-- A one-rule standards set with non-stop-word vocabulary (cf.
`tests/conftest.py`). -/
def ssOne : StandardsSet :=
  { standards_set := "test_v1", name := "Test", version := "1.0",
    rules := [{ standard_ref := "T-1", title := "Use measurable verbs",
                body := "Objectives must use observable verbs.",
                tags := ["objectives"], severity_default := "warning" }] }

def oneScore : String → List ℚ := fun _ => [0]

def rtOne : StandardsRetriever :=
  { rules := ssOne.rules, scoresOf := oneScore }

/-- The request fixture used by the pipeline tests. -/
def reqEx : ReviewRequest :=
  { request_id := none,
    content := "The student will understand navigation.",
    standards_set := "test_v1", strictness := "medium",
    options := { return_rationale := true, return_excerpts := true,
                 max_observations := 25, min_confidence := mkRat 55 100 } }

def ruleT1 : StandardRule :=
  { standard_ref := "T-1", title := "Use measurable verbs",
    body := "Objectives must use observable verbs.", tags := ["objectives"],
    severity_default := "warning" }

def usageProse : Usage := { input_tokens := 100, output_tokens := 30 }

/-- The response `run_review` assembles for the all-prose model reply. -/
def respProse : ReviewResponse :=
  { observations := [],
    meta := mkMeta reqEx "1.0.0" "llama3" usageProse,
    errors := [parseFailureError] }

/-! # Theorems -/

/-! ## Helper lemmas about the validator -/

/-- Every field of an accepted observation is the corresponding sanitiser's
output. -/
theorem validate_some_shape {d : List (String × Json)} {L : Int}
    {refs : List String} {obs : Observation}
    (h : validateObservation d L refs = some obs) :
    obs.span = spanValue d L ∧ validatedSeverity d = some obs.severity ∧
    validatedCategory d = some obs.category ∧
    obs.confidence = clampedConfidence d := by
  unfold validateObservation at h
  repeat' split at h
  all_goals simp_all
  all_goals (subst h; exact ⟨rfl, rfl, rfl, rfl⟩)

/-- A span that survives the sanitiser is in range. -/
theorem validatedSpan_wf {j : Json} {L : Int} {l : List Int}
    (h : validatedSpan j L = some l) :
    ∃ a b : Int, l = [a, b] ∧ 0 ≤ a ∧ a < b ∧ b ≤ L := by
  unfold validatedSpan at h
  split at h
  case _ x y =>
    cases hx : jsonAsInt x with
    | none => simp [hx] at h
    | some a =>
      cases hy : jsonAsInt y with
      | none => simp [hx, hy] at h
      | some b =>
        simp only [hx, hy] at h
        split at h
        case isTrue hc =>
          injection h with h2
          exact ⟨a, b, h2.symm, hc.1, hc.2.1, hc.2.2⟩
        case isFalse => exact absurd h (by simp)
  case _ => simp_all

/-- The final span of any candidate is absent or in range. -/
theorem spanValue_wf (d : List (String × Json)) (L : Int) :
    spanValue d L = none ∨
      ∃ a b : Int, spanValue d L = some [a, b] ∧ 0 ≤ a ∧ a < b ∧ b ≤ L := by
  unfold spanValue
  split
  · left; rfl
  · cases hv : validatedSpan _ L with
    | none => left; rfl
    | some l =>
      right
      obtain ⟨a, b, rfl, h1, h2, h3⟩ := validatedSpan_wf hv
      exact ⟨a, b, rfl, h1, h2, h3⟩

theorem dictGet_dictSet_self (d : List (String × Json)) (k : String) (v : Json) :
    dictGet (dictSet d k v) k = some v := by
  induction d with
  | nil => simp [dictSet, dictGet]
  | cons kv rest ih =>
    obtain ⟨k', v'⟩ := kv
    by_cases hk : k' = k <;> simp [dictSet, dictGet, hk, ih]

theorem dictGet_dictSet_ne (d : List (String × Json)) (k : String) (v : Json)
    (k2 : String) (hne : k2 ≠ k) :
    dictGet (dictSet d k v) k2 = dictGet d k2 := by
  induction d with
  | nil => simp [dictSet, dictGet, Ne.symm hne]
  | cons kv rest ih =>
    obtain ⟨k', v'⟩ := kv
    by_cases hk : k' = k
    · subst hk
      simp [dictSet, dictGet, Ne.symm hne]
    · simp [dictSet, dictGet, hk, ih]

theorem getNonNull_dictSet_null (d : List (String × Json)) (k : String) :
    getNonNull (dictSet d k Json.null) k = none := by
  unfold getNonNull
  rw [dictGet_dictSet_self]

/-- Nullifying a violating span changes nothing else the validator reads, so
acceptance and every other field are unchanged. -/
theorem validate_span_nullified (d : List (String × Json)) (L : Int)
    (refs : List String) (j : Json)
    (hj : dictGet d "span" = some j) (hnn : j ≠ Json.null)
    (hviol : validatedSpan j L = none) :
    validateObservation d L refs =
      validateObservation (dictSet d "span" Json.null) L refs := by
  have href : dictGet (dictSet d "span" Json.null) "standard_ref" =
      dictGet d "standard_ref" := dictGet_dictSet_ne _ _ _ _ (by decide)
  have hmsg : dictGet (dictSet d "span" Json.null) "message" =
      dictGet d "message" := dictGet_dictSet_ne _ _ _ _ (by decide)
  have hsf : optStrField (dictSet d "span" Json.null) "suggested_fix" =
      optStrField d "suggested_fix" := by
    unfold optStrField
    rw [dictGet_dictSet_ne _ _ _ _ (by decide)]
  have hra : optStrField (dictSet d "span" Json.null) "rationale" =
      optStrField d "rationale" := by
    unfold optStrField
    rw [dictGet_dictSet_ne _ _ _ _ (by decide)]
  have hse : optStrField (dictSet d "span" Json.null) "standard_excerpt" =
      optStrField d "standard_excerpt" := by
    unfold optStrField
    rw [dictGet_dictSet_ne _ _ _ _ (by decide)]
  have hsev : validatedSeverity (dictSet d "span" Json.null) =
      validatedSeverity d := by
    unfold validatedSeverity
    rw [dictGet_dictSet_ne _ _ _ _ (by decide)]
  have hcat : validatedCategory (dictSet d "span" Json.null) =
      validatedCategory d := by
    unfold validatedCategory
    rw [dictGet_dictSet_ne _ _ _ _ (by decide)]
  have hconf : clampedConfidence (dictSet d "span" Json.null) =
      clampedConfidence d := by
    unfold clampedConfidence
    rw [dictGet_dictSet_ne _ _ _ _ (by decide)]
  have hspanL : spanValue d L = none := by
    unfold spanValue getNonNull
    rw [hj]
    cases j <;> simp_all
  have hspanR : spanValue (dictSet d "span" Json.null) L = none := by
    unfold spanValue
    rw [getNonNull_dictSet_null]
  unfold validateObservation
  rw [href, hmsg, hsf, hra, hse, hsev, hcat, hconf, hspanL, hspanR]

theorem clampedConfidence_bounds (d : List (String × Json)) :
    0 ≤ clampedConfidence d ∧ clampedConfidence d ≤ 1 := by
  unfold clampedConfidence
  exact ⟨le_max_left _ _, max_le (by norm_num) (min_le_left _ _)⟩

theorem clampedConfidence_missing (d : List (String × Json))
    (hm : dictGet d "confidence" = none) : clampedConfidence d = 0 := by
  unfold clampedConfidence
  rw [hm]
  show max 0 (min 1 (0 : ℚ)) = 0
  norm_num

theorem clampedConfidence_nonnum (d : List (String × Json)) (j : Json)
    (hj : dictGet d "confidence" = some j) (hn : jsonToNum j = none) :
    clampedConfidence d = mkRat 1 2 := by
  unfold clampedConfidence
  rw [hj]
  show max 0 (min 1 (match jsonToNum j with
    | some q => q
    | none => mkRat 1 2)) = mkRat 1 2
  rw [hn]
  norm_num [mkRat]

theorem clampedConfidence_num (d : List (String × Json)) (j : Json) (q : ℚ)
    (hj : dictGet d "confidence" = some j) (hn : jsonToNum j = some q) :
    clampedConfidence d = max 0 (min 1 q) := by
  unfold clampedConfidence
  rw [hj]
  show max 0 (min 1 (match jsonToNum j with
    | some q => q
    | none => mkRat 1 2)) = max 0 (min 1 q)
  rw [hn]

/-! ## C2 — confidence defaulting and clamping -/

/-- C2 (counterexample): the claim says a candidate with a *missing*
confidence field is accepted with confidence 0.5; the code's
`obs_data.get("confidence", 0.0)` makes it 0.0. -/
theorem validate_missing_confidence_counterexample :
    (validateObservation dMissingConf 10 ["R-1"]).map
        (fun o => o.confidence) = some 0 ∧
      (validateObservation dMissingConf 10 ["R-1"]).map
        (fun o => o.confidence) ≠ some (mkRat 1 2) := by
  exact ⟨rfl, by decide⟩

/-- C2 (amended): a *missing* confidence defaults to 0.0; a present but
non-numeric confidence defaults to 0.5; a numeric one is clamped into
`[0,1]` (never rejected for range); every accepted observation's confidence
lies in `[0,1]`. -/
theorem validate_confidence_amended :
    ∀ (d : List (String × Json)) (L : Int) (refs : List String)
      (obs : Observation),
      validateObservation d L refs = some obs →
      (0 ≤ obs.confidence ∧ obs.confidence ≤ 1) ∧
      (dictGet d "confidence" = none → obs.confidence = 0) ∧
      (∀ j : Json, dictGet d "confidence" = some j → jsonToNum j = none →
        obs.confidence = mkRat 1 2) ∧
      (∀ (j : Json) (q : ℚ), dictGet d "confidence" = some j →
        jsonToNum j = some q → obs.confidence = max 0 (min 1 q)) := by
  intro d L refs obs h
  have hc := (validate_some_shape h).2.2.2
  rw [hc]
  exact ⟨clampedConfidence_bounds d,
    fun hm => clampedConfidence_missing d hm,
    fun j hj hn => clampedConfidence_nonnum d j hj hn,
    fun j q hj hn => clampedConfidence_num d j q hj hn⟩

/-- C2 (witness): the amended theorem applied to the concrete
missing-confidence candidate. -/
theorem validate_confidence_amended_witness :
    (0 ≤ obsMissingConf.confidence ∧ obsMissingConf.confidence ≤ 1) ∧
      obsMissingConf.confidence = 0 :=
  ⟨(validate_confidence_amended dMissingConf 10 ["R-1"] obsMissingConf rfl).1,
   (validate_confidence_amended dMissingConf 10 ["R-1"] obsMissingConf rfl).2.1 rfl⟩

/-! ## C6 — span well-formedness -/

/-- C6: every observation accepted by the validator has an absent span or one
with `0 ≤ start < end ≤ content_length`; and a candidate whose present span
violates that shape validates exactly as if its span were `null` — the span
is nullified, the candidate is not rejected. -/
theorem validate_span_wellformed :
    (∀ (d : List (String × Json)) (L : Int) (refs : List String)
      (obs : Observation),
      validateObservation d L refs = some obs →
      obs.span = none ∨
        ∃ a b : Int, obs.span = some [a, b] ∧ 0 ≤ a ∧ a < b ∧ b ≤ L) ∧
    (∀ (d : List (String × Json)) (L : Int) (refs : List String) (j : Json),
      dictGet d "span" = some j → j ≠ Json.null → validatedSpan j L = none →
      validateObservation d L refs =
        validateObservation (dictSet d "span" Json.null) L refs) := by
  constructor
  · intro d L refs obs h
    rw [(validate_some_shape h).1]
    exact spanValue_wf d L
  · exact validate_span_nullified

/-- C6 (witness): a concrete accepted in-range span, and a concrete
out-of-range span (`[50, 200]` against content length 100) that is nullified
without rejecting the candidate. -/
theorem validate_span_wellformed_witness :
    (obsValid.span = none ∨
      ∃ a b : Int, obsValid.span = some [a, b] ∧ 0 ≤ a ∧ a < b ∧ b ≤ 100) ∧
    validateObservation dBadSpan 100 ["R-1"] =
      validateObservation (dictSet dBadSpan "span" Json.null) 100 ["R-1"] :=
  ⟨validate_span_wellformed.1 dValid 100 ["R-1"] obsValid rfl,
   validate_span_wellformed.2 dBadSpan 100 ["R-1"]
     (Json.arr [Json.int 50, Json.int 200]) rfl
     (fun h => Json.noConfusion h) rfl⟩

/-! ## C10 — boolean confidence is numeric -/

/-- C10: a JSON boolean confidence passes the `isinstance(confidence,
(int, float))` check (Python `bool` is an `int`), so `true` clamps to 1.0
and `false` to 0.0 rather than defaulting to 0.5. -/
theorem validate_bool_confidence :
    ∀ (d : List (String × Json)) (L : Int) (refs : List String)
      (obs : Observation) (b : Bool),
      dictGet d "confidence" = some (Json.bool b) →
      validateObservation d L refs = some obs →
      obs.confidence = if b then 1 else 0 := by
  intro d L refs obs b hb h
  rw [(validate_some_shape h).2.2.2,
    clampedConfidence_num d (Json.bool b) (if b then 1 else 0) hb rfl]
  cases b <;> norm_num

/-- C10 (witness): `confidence: true` yields an accepted confidence of 1. -/
theorem validate_bool_confidence_witness :
    obsBoolConf.confidence = if true then 1 else 0 :=
  validate_bool_confidence dBoolConf 100 ["R-1"] obsBoolConf true rfl rfl

/-! ## C5 — policy idempotence -/

/-- C5: on a batch that is already gated, biased, deduplicated, sorted and
truncated for the same parameters, `apply_policy` is the identity, so
applying it twice equals applying it once. -/
theorem apply_policy_idempotent :
    ∀ (obs : List Observation) (strictness : String) (minC : ℚ) (maxO : Nat)
      (cfg : PolicyConfig),
      confidence_gate obs minC = obs →
      strictness_bias obs strictness cfg = obs →
      deduplicate obs = obs →
      sort_observations obs = obs →
      obs.take maxO = obs →
      apply_policy (apply_policy obs strictness (some minC) (some maxO) cfg)
          strictness (some minC) (some maxO) cfg =
        apply_policy obs strictness (some minC) (some maxO) cfg := by
  intro obs strictness minC maxO cfg hg hb hd hs ht
  have h1 : apply_policy obs strictness (some minC) (some maxO) cfg = obs := by
    unfold apply_policy
    simp only [Option.getD]
    rw [hg, hb, hd, hs, ht]
  rw [h1]
  exact h1

/-- C5 (witness): the idempotence theorem applied to a concrete
already-normalised singleton batch. -/
theorem apply_policy_idempotent_witness :
    apply_policy
        (apply_policy [obsSteady] "medium" (some (mkRat 55 100)) (some 25)
          defaultPolicyConfig)
        "medium" (some (mkRat 55 100)) (some 25) defaultPolicyConfig =
      apply_policy [obsSteady] "medium" (some (mkRat 55 100)) (some 25)
        defaultPolicyConfig :=
  apply_policy_idempotent [obsSteady] "medium" (mkRat 55 100) 25
    defaultPolicyConfig (by decide) (by decide) (by decide) (by decide)
    (by decide)

/-! ## C9 — extraction strategies -/

/-- C9: `extract_json` is the ordered fallback chain direct-parse,
fenced-block, first-`{`-to-last-`}` — first success wins, absence when all
fail — and on the three exemplar inputs it returns the direct object, the
identical object from the fence, and absence for brace-free prose. -/
theorem extract_json_strategies :
    (∀ raw : String,
      extract_json raw =
        (jsonLoads raw).orElse (fun _ =>
          (fenceParse raw).orElse (fun _ => braceParse raw))) ∧
    extract_json ("\x7b\"observations\": []\x7d") =
      some (Json.obj [("observations", Json.arr [])]) ∧
    extract_json ("```json\n\x7b\"observations\": []\x7d\n```") =
      some (Json.obj [("observations", Json.arr [])]) ∧
    jsonLoads ("```json\n\x7b\"observations\": []\x7d\n```") = none ∧
    extract_json ("prose with no braces") = none := by
  refine ⟨fun raw => ?_, rfl, rfl, rfl, rfl⟩
  cases h1 : jsonLoads raw <;> cases h2 : fenceParse raw <;>
    simp [extract_json, h1, h2, Option.orElse]

/-! ## C1 — a JSON-array model reply crashes the pipeline (code bug) -/

/-- C1 (failing input): when the raw model text parses as a JSON value that
is not an object — here the array `[1, 2]` — `parse_model_output` calls
`data.get("observations", [])` on a `list` and raises `AttributeError`,
which propagates out of `run_review` instead of the promised
`ReviewResponse`.  The specification (§7) and the parser's own `dict | None`
annotation and salvage-not-crash docstring say this cannot happen. -/
theorem parse_model_output_array_raises :
    parse_model_output ("[1, 2]") 0 [] =
      Except.error "AttributeError: parsed JSON value has no attribute get" ∧
    runReviewMulti reqEx [ruleT1] (Except.ok ("[1, 2]", usageProse))
        defaultPolicyConfig "1.0.0" "llama3" =
      Except.error "AttributeError: parsed JSON value has no attribute get" :=
  ⟨rfl, rfl⟩

/-! ## C8 — when MODEL_PARSE_FAILURE is appended -/

set_option maxRecDepth 100000

theorem parse_ok_extract {raw : String} {L : Int} {refs : List String}
    {obs : List Observation} (hp : parse_model_output raw L refs = Except.ok obs) :
    extract_json raw = none ∨ ∃ kvs, extract_json raw = some (Json.obj kvs) := by
  unfold parse_model_output at hp
  cases hx : extract_json raw with
  | none => exact Or.inl rfl
  | some v =>
    rw [hx] at hp
    cases v <;> simp_all

theorem parseFailureErrors_none {raw : String} {observations : List Observation}
    {E : List Error} (hx : extract_json raw = none)
    (hE : parseFailureErrors raw observations = Except.ok E) :
    parseFailureError ∈ E ↔ (observations = [] ∧ pyStrip raw ≠ "") := by
  unfold parseFailureErrors at hE
  split at hE
  case isTrue hc =>
    rw [hx] at hE
    injection hE with hE
    subst hE
    simp [List.isEmpty_iff.mp hc.1, hc.2]
  case isFalse hc =>
    injection hE with hE
    subst hE
    simp only [List.not_mem_nil, false_iff]
    rintro ⟨hobs0, hstrip⟩
    subst hobs0
    exact hc ⟨rfl, hstrip⟩

theorem parseFailureErrors_obj {raw : String} {observations : List Observation}
    {E : List Error} {kvs : List (String × Json)}
    (hx : extract_json raw = some (Json.obj kvs))
    (hE : parseFailureErrors raw observations = Except.ok E) :
    parseFailureError ∈ E ↔
      (observations = [] ∧ pyStrip raw ≠ "" ∧ dictGet kvs "observations" = none) := by
  unfold parseFailureErrors at hE
  split at hE
  case isTrue hc =>
    rw [hx] at hE
    simp only [pythonContains] at hE
    injection hE with hE
    subst hE
    cases hkey : dictGet kvs "observations" with
    | none => simp [hkey, List.isEmpty_iff.mp hc.1, hc.2, parseFailureError]
    | some v => simp [hkey]
  case isFalse hc =>
    injection hE with hE
    subst hE
    simp only [List.not_mem_nil, false_iff]
    rintro ⟨hobs0, hstrip, -⟩
    subst hobs0
    exact hc ⟨rfl, hstrip⟩

theorem run_review_parse_failure_iff :
    ∀ (request : ReviewRequest) (rules : List StandardRule) (raw : String)
      (usage : Usage) (cfg : PolicyConfig) (pv mid : String)
      (resp : ReviewResponse),
      runReviewMulti request rules (Except.ok (raw, usage)) cfg pv mid =
        Except.ok resp →
      (parseFailureError ∈ resp.errors ↔
        (parse_model_output raw (request.content.length : Int)
            (rules.map (fun r => r.standard_ref)) = Except.ok [] ∧
         pyStrip raw ≠ "" ∧
         (extract_json raw = none ∨
          ∃ kvs, extract_json raw = some (Json.obj kvs) ∧
            dictGet kvs "observations" = none))) := by
  intro request rules raw usage cfg pv mid resp h
  simp only [runReviewMulti] at h
  cases hp : parse_model_output raw (request.content.length : Int)
      (rules.map (fun r => r.standard_ref)) with
  | error e => rw [hp] at h; exact absurd h (by simp)
  | ok observations =>
    rw [hp] at h
    dsimp only at h
    cases hE : parseFailureErrors raw observations with
    | error e => rw [hE] at h; exact absurd h (by simp)
    | ok E =>
      rw [hE] at h
      dsimp only at h
      injection h with h
      subst h
      dsimp only
      simp only [Except.ok.injEq]
      rcases parse_ok_extract hp with hx | ⟨kvs, hx⟩
      · rw [parseFailureErrors_none hx hE]
        simp [hx]
      · rw [parseFailureErrors_obj hx hE]
        simp [hx, and_assoc]

/-- C8 (witness): the all-prose reply (repository test
`test_parse_failure_returns_error`) produces exactly the parse-failure
error. -/
theorem run_review_parse_failure_iff_witness :
    parseFailureError ∈ respProse.errors :=
  (run_review_parse_failure_iff reqEx [ruleT1]
      ("This is not JSON at all, just prose.") usageProse defaultPolicyConfig
      "1.0.0" "llama3" respProse (by rfl)).mpr
    ⟨by rfl, by decide, Or.inl (by rfl)⟩

/-! ## C3, C4 — retriever construction, count and ranking -/

/-- Strict ranking used by the stable ascending argsort: smaller score
first, ties by original index. -/
def rankLt (scores : List ℚ) (i j : Nat) : Prop :=
  scoreAt scores i < scoreAt scores j ∨
    (scoreAt scores i = scoreAt scores j ∧ i < j)

theorem rankLt_trans {scores : List ℚ} {a b c : Nat}
    (h1 : rankLt scores a b) (h2 : rankLt scores b c) : rankLt scores a c := by
  rcases h1 with h1 | ⟨h1, h1i⟩ <;> rcases h2 with h2 | ⟨h2, h2i⟩
  · exact Or.inl (lt_trans h1 h2)
  · exact Or.inl (h2 ▸ h1)
  · exact Or.inl (h1 ▸ h2)
  · exact Or.inr ⟨h1.trans h2, lt_trans h1i h2i⟩

theorem argInsert_mem {scores : List ℚ} {i x : Nat} {l : List Nat}
    (h : x ∈ argInsert scores i l) : x = i ∨ x ∈ l := by
  induction l with
  | nil =>
    simp only [argInsert, List.mem_singleton] at h
    exact Or.inl h
  | cons j l ih =>
    rw [argInsert] at h
    split at h
    · rcases List.mem_cons.mp h with h1 | h1
      · exact Or.inl h1
      · exact Or.inr h1
    · rcases List.mem_cons.mp h with h1 | h1
      · exact Or.inr (h1 ▸ List.mem_cons_self j l)
      · rcases ih h1 with h2 | h2
        · exact Or.inl h2
        · exact Or.inr (List.mem_cons_of_mem _ h2)

theorem argInsert_length (scores : List ℚ) (i : Nat) (l : List Nat) :
    (argInsert scores i l).length = l.length + 1 := by
  induction l with
  | nil => rfl
  | cons j l ih =>
    rw [argInsert]
    split <;> simp [ih]

theorem argInsert_pairwise {scores : List ℚ} {i : Nat} {l : List Nat}
    (hp : l.Pairwise (rankLt scores)) (hlt : ∀ j ∈ l, j < i) :
    (argInsert scores i l).Pairwise (rankLt scores) := by
  induction l with
  | nil => simp [argInsert]
  | cons j l ih =>
    rw [argInsert]
    rw [List.pairwise_cons] at hp
    split
    case isTrue hc =>
      refine List.Pairwise.cons ?_ (List.Pairwise.cons hp.1 hp.2)
      intro x hx
      rcases List.mem_cons.mp hx with h | h
      · exact h ▸ Or.inl hc
      · exact rankLt_trans (Or.inl hc) (hp.1 x h)
    case isFalse hc =>
      have hji : rankLt scores j i := by
        rcases lt_or_eq_of_le (not_lt.mp hc) with h | h
        · exact Or.inl h
        · exact Or.inr ⟨h, hlt j (List.mem_cons_self j l)⟩
      refine List.Pairwise.cons ?_ (ih hp.2 (fun x hx => hlt x (List.mem_cons_of_mem _ hx)))
      intro x hx
      rcases argInsert_mem hx with h | h
      · exact h ▸ hji
      · exact hp.1 x h

theorem argsort_fold_pairwise (scores : List ℚ) :
    ∀ (l : List Nat) (acc : List Nat),
      acc.Pairwise (rankLt scores) →
      (∀ x ∈ acc, ∀ i ∈ l, x < i) →
      l.Pairwise (· < ·) →
      ((l.foldl (fun a i => argInsert scores i a) acc)).Pairwise (rankLt scores) := by
  intro l
  induction l with
  | nil => intro acc hacc _ _; exact hacc
  | cons i l ih =>
    intro acc hacc hxl hl
    rw [List.foldl_cons]
    rw [List.pairwise_cons] at hl
    apply ih
    · exact argInsert_pairwise hacc (fun j hj => hxl j hj i (List.mem_cons_self i l))
    · intro x hx i2 hi2
      rcases argInsert_mem hx with h | h
      · exact h ▸ hl.1 i2 hi2
      · exact hxl x h i2 (List.mem_cons_of_mem _ hi2)
    · exact hl.2

theorem argsortAsc_pairwise (scores : List ℚ) :
    (argsortAsc scores).Pairwise (rankLt scores) := by
  unfold argsortAsc
  exact argsort_fold_pairwise scores _ [] (List.Pairwise.nil)
    (by intro x hx; exact absurd hx (List.not_mem_nil x))
    (List.pairwise_lt_range _)

theorem argsort_fold_length (scores : List ℚ) :
    ∀ (l : List Nat) (acc : List Nat),
      ((l.foldl (fun a i => argInsert scores i a) acc)).length =
        acc.length + l.length := by
  intro l
  induction l with
  | nil => intro acc; rfl
  | cons i l ih =>
    intro acc
    rw [List.foldl_cons, ih, argInsert_length, List.length_cons]
    omega

theorem argsortAsc_length (scores : List ℚ) :
    (argsortAsc scores).length = scores.length := by
  unfold argsortAsc
  rw [argsort_fold_length]
  simp

theorem topIndices_length (scores : List ℚ) (k : Nat) :
    (topIndices scores k).length = min k scores.length := by
  unfold topIndices
  rw [List.length_take, List.length_reverse, argsortAsc_length]

theorem topIndices_pairwise (scores : List ℚ) (k : Nat) :
    (topIndices scores k).Pairwise (fun i j => rankLt scores j i) := by
  unfold topIndices
  exact ((List.pairwise_reverse.mpr (argsortAsc_pairwise scores)).sublist
    (List.take_sublist _ _))

/-- C3 (counterexample): constructing the retriever on an *empty* rule set
does not succeed with an empty result — `fit_transform` on the empty corpus
raises scikit-learn's empty-vocabulary `ValueError`. -/
theorem retriever_init_empty_rules_counterexample :
    retrieverInit emptyStandardsSet (fun _ => []) =
      Except.error
        "ValueError: empty vocabulary; perhaps the documents only contain stop words" :=
  rfl

/-- C3 (amended): construction *errors* on an empty rule set (empty
vocabulary) rather than yielding an empty-result retriever; for every
successfully constructed retriever, `retrieve` is total — it never errors on
any content (the empty string included) and returns `min(k, rule_count)`
rules. -/
theorem retrieve_after_init_total :
    ∀ (ss : StandardsSet) (f : String → List ℚ) (rt : StandardsRetriever),
      retrieverInit ss f = Except.ok rt →
      ∀ (content strictness : String) (cfg : PolicyConfig),
        (rt.scoresOf content).length = rt.rules.length →
        (rt.retrieve content strictness cfg).length =
          min (kForStrictness cfg strictness) rt.rules.length := by
  intro ss f rt hinit content strictness cfg hlen
  unfold StandardsRetriever.retrieve
  rw [List.length_map, topIndices_length, hlen]
  omega

/-- C3 (witness): the amended theorem at a concretely constructed one-rule
retriever and empty content. -/
theorem retrieve_after_init_total_witness :
    (rtOne.retrieve "" "low" defaultPolicyConfig).length =
      min (kForStrictness defaultPolicyConfig "low") rtOne.rules.length :=
  retrieve_after_init_total ssOne oneScore rtOne rfl "" "low"
    defaultPolicyConfig rfl

/-- C4 (counterexample): two rules with identical rule text score exactly
equally (identical tf-idf rows; on empty content both cosine scores are
0.0), yet `retrieve` returns them in *reverse* original order where the
claim promises original order.  At this two-element score vector numpy's
behaviour is deterministic — introsort runs its stable insertion-sort base
case, `argsort` yields `[0, 1]`, and the `[::-1]` reversal puts the later
rule first — so the refutation does not depend on the model's pinned tie
order for larger arrays. -/
theorem retrieve_tie_order_counterexample :
    retrieverInit ssTie tieScores = Except.ok rtTie ∧
    rtTie.retrieve "" "medium" defaultPolicyConfig = [ruleDupB, ruleDupA] ∧
    ruleDupA ≠ ruleDupB :=
  ⟨rfl, rfl, by decide⟩

/-- C4 (amended): for every non-empty rule set, `retrieve` returns exactly
`min(configured_k(strictness), rule_count)` rules ordered by (weakly)
descending cosine-similarity score — but ties between equal-scoring rules
are *not* broken by original rule order: the default `np.argsort` gives no
tie-order guarantee at all, and where its behaviour is determined (its
insertion-sort range, in particular the two-rule counterexample) the
`[::-1]` reversal puts equal-scoring rules in reverse original order.  The
theorem asserts only what every `np.argsort` kind guarantees: the count and
the weakly descending score order. -/
theorem retrieve_ranking_amended :
    ∀ (rt : StandardsRetriever) (content strictness : String)
      (cfg : PolicyConfig),
      (rt.scoresOf content).length = rt.rules.length →
      rt.rules ≠ [] →
      (rt.retrieve content strictness cfg).length =
        min (kForStrictness cfg strictness) rt.rules.length ∧
      (topIndices (rt.scoresOf content)
          (min (kForStrictness cfg strictness) rt.rules.length)).Pairwise
        (fun i j => scoreAt (rt.scoresOf content) j ≤
          scoreAt (rt.scoresOf content) i) := by
  intro rt content strictness cfg hlen hne
  constructor
  · unfold StandardsRetriever.retrieve
    rw [List.length_map, topIndices_length, hlen]
    omega
  · refine (topIndices_pairwise _ _).imp ?_
    intro i j h
    rcases h with hlt | ⟨heq, -⟩
    · exact le_of_lt hlt
    · exact le_of_eq heq

/-- C4 (witness): the amended theorem at the concrete one-rule retriever. -/
theorem retrieve_ranking_amended_witness :
    (rtOne.retrieve "" "medium" defaultPolicyConfig).length =
        min (kForStrictness defaultPolicyConfig "medium") rtOne.rules.length ∧
      (topIndices (rtOne.scoresOf "")
          (min (kForStrictness defaultPolicyConfig "medium")
            rtOne.rules.length)).Pairwise
        (fun i j => scoreAt (rtOne.scoresOf "") j ≤
          scoreAt (rtOne.scoresOf "") i) :=
  retrieve_ranking_amended rtOne "" "medium" defaultPolicyConfig rfl
    (by decide)

/-! ## C7 — deduplication -/

theorem dedupInsert_inv {processed : List Observation}
    {acc : List ((Option (List Int) × String) × Observation)} {b : Observation}
    (h : DedupInv processed acc) :
    DedupInv (processed ++ [b]) (dedupInsert acc b) := by
  obtain ⟨ha, hb, hc, hd⟩ := h
  unfold dedupInsert
  by_cases hex : acc.any (fun kv => kv.1 = dedupKey b) = true
  · rw [if_pos hex]
    obtain ⟨kv0, hkv0, hdec0⟩ := List.any_eq_true.mp hex
    have hkey0 : kv0.1 = dedupKey b := of_decide_eq_true hdec0
    have fstg : ∀ kv : (Option (List Int) × String) × Observation,
        (if kv.1 = dedupKey b ∧ kv.2.confidence < b.confidence
          then (kv.1, b) else kv).1 = kv.1 := by
      intro kv
      split <;> rfl
    refine ⟨?_, ?_, ?_, ?_⟩
    · rw [List.pairwise_map]
      refine ha.imp_of_mem ?_
      intro x y hx hy hne
      show (if x.1 = dedupKey b ∧ x.2.confidence < b.confidence
          then (x.1, b) else x).1 ≠
        (if y.1 = dedupKey b ∧ y.2.confidence < b.confidence
          then (y.1, b) else y).1
      rw [fstg, fstg]
      exact hne
    · intro kv' hkv'
      obtain ⟨kv, hkv, rfl⟩ := List.mem_map.mp hkv'
      by_cases c : kv.1 = dedupKey b ∧ kv.2.confidence < b.confidence
      · rw [if_pos c]
        exact c.1
      · rw [if_neg c]
        exact hb kv hkv
    · intro p hp
      rcases List.mem_append.mp hp with hpL | hpR
      · obtain ⟨kv, hkv, hk⟩ := hc p hpL
        refine ⟨_, List.mem_map_of_mem _ hkv, ?_⟩
        rw [fstg]
        exact hk
      · have hpb : p = b := List.mem_singleton.mp hpR
        subst hpb
        refine ⟨_, List.mem_map_of_mem _ hkv0, ?_⟩
        rw [fstg]
        exact hkey0
    · intro kv' hkv'
      obtain ⟨kv, hkv, rfl⟩ := List.mem_map.mp hkv'
      obtain ⟨pre, post, heq, hpre, hpost⟩ := hd kv hkv
      by_cases c : kv.1 = dedupKey b ∧ kv.2.confidence < b.confidence
      · rw [if_pos c]
        refine ⟨processed, [], rfl, ?_, ?_⟩
        · intro p hp hkp
          have hkkv : dedupKey b = dedupKey kv.2 := by
            rw [← c.1, hb kv hkv]
          rw [heq] at hp
          rcases List.mem_append.mp hp with hp1 | hp2
          · exact lt_trans (hpre p hp1 (hkp.trans hkkv)) c.2
          · rcases List.mem_cons.mp hp2 with hp3 | hp4
            · exact hp3 ▸ c.2
            · exact lt_of_le_of_lt (hpost p hp4 (hkp.trans hkkv)) c.2
        · intro q hq
          exact absurd hq (List.not_mem_nil q)
      · rw [if_neg c]
        refine ⟨pre, post ++ [b], by rw [heq]; simp, hpre, ?_⟩
        intro q hq hkq
        rcases List.mem_append.mp hq with hq1 | hq2
        · exact hpost q hq1 hkq
        · have hqb : q = b := List.mem_singleton.mp hq2
          subst hqb
          have hc1 : kv.1 = dedupKey q := by rw [hb kv hkv, hkq]
          exact le_of_not_lt (fun h2 => c ⟨hc1, h2⟩)
  · rw [if_neg hex]
    have hnone : ∀ kv ∈ acc, ¬ kv.1 = dedupKey b := fun kv hkv hkeq =>
      hex (List.any_eq_true.mpr ⟨kv, hkv, decide_eq_true hkeq⟩)
    refine ⟨?_, ?_, ?_, ?_⟩
    · rw [List.pairwise_append]
      refine ⟨ha, List.pairwise_singleton _ _, ?_⟩
      intro x hx y hy
      have hyk : y = (dedupKey b, b) := List.mem_singleton.mp hy
      subst hyk
      exact hnone x hx
    · intro kv hkv
      rcases List.mem_append.mp hkv with hkvL | hkvR
      · exact hb kv hkvL
      · have hk : kv = (dedupKey b, b) := List.mem_singleton.mp hkvR
        subst hk
        rfl
    · intro p hp
      rcases List.mem_append.mp hp with hpL | hpR
      · obtain ⟨kv, hkv, hk⟩ := hc p hpL
        exact ⟨kv, List.mem_append_left _ hkv, hk⟩
      · have hpb : p = b := List.mem_singleton.mp hpR
        subst hpb
        exact ⟨(dedupKey p, p),
          List.mem_append_right _ (List.mem_singleton.mpr rfl), rfl⟩
    · intro kv hkv
      rcases List.mem_append.mp hkv with hkvL | hkvR
      · obtain ⟨pre, post, heq, hpre, hpost⟩ := hd kv hkvL
        refine ⟨pre, post ++ [b], by rw [heq]; simp, hpre, ?_⟩
        intro q hq hkq
        rcases List.mem_append.mp hq with hq1 | hq2
        · exact hpost q hq1 hkq
        · have hqb : q = b := List.mem_singleton.mp hq2
          subst hqb
          exact absurd (by rw [hb kv hkvL, hkq]) (hnone kv hkvL)
      · have hk : kv = (dedupKey b, b) := List.mem_singleton.mp hkvR
        subst hk
        refine ⟨processed, [], rfl, ?_, ?_⟩
        · intro p hp hkp
          obtain ⟨kv2, hkv2, hk2⟩ := hc p hp
          exact absurd (hk2.trans hkp) (hnone kv2 hkv2)
        · intro q hq
          exact absurd hq (List.not_mem_nil q)

theorem dedup_fold_inv :
    ∀ (l processed : List Observation)
      (acc : List ((Option (List Int) × String) × Observation)),
      DedupInv processed acc →
      DedupInv (processed ++ l) (l.foldl dedupInsert acc) := by
  intro l
  induction l with
  | nil =>
    intro processed acc h
    simpa using h
  | cons b l ih =>
    intro processed acc h
    rw [List.foldl_cons]
    have h2 := ih (processed ++ [b]) (dedupInsert acc b) (dedupInsert_inv h)
    simpa [List.append_assoc] using h2

theorem deduplicate_inv (obs : List Observation) :
    DedupInv obs (obs.foldl dedupInsert []) := by
  have h0 : DedupInv [] [] := by
    refine ⟨List.Pairwise.nil, ?_, ?_, ?_⟩
    · intro kv hkv
      exact absurd hkv (List.not_mem_nil kv)
    · intro p hp
      exact absurd hp (List.not_mem_nil p)
    · intro kv hkv
      exact absurd hkv (List.not_mem_nil kv)
  simpa using dedup_fold_inv obs [] [] h0

/-- C7 (amended): `deduplicate` groups by `(span, standard_ref)` where
spans that are absent *or the empty list* form a single equivalence class
per ref (the key is built from Python truthiness of `obs.span`); within each
group exactly one observation survives — one that strictly exceeds every
earlier same-key observation's confidence and is at least every later one's,
i.e. the first-encountered maximum — and every group is represented. -/
theorem deduplicate_amended :
    ∀ obs : List Observation,
      ((deduplicate obs).Pairwise (fun a b => dedupKey a ≠ dedupKey b)) ∧
      (∀ p ∈ obs, ∃ o ∈ deduplicate obs, dedupKey o = dedupKey p) ∧
      (∀ o ∈ deduplicate obs,
        ∃ pre post, obs = pre ++ o :: post ∧
          (∀ p ∈ pre, dedupKey p = dedupKey o → p.confidence < o.confidence) ∧
          (∀ q ∈ post, dedupKey q = dedupKey o → q.confidence ≤ o.confidence)) := by
  intro obs
  obtain ⟨ha, hb, hc, hd⟩ := deduplicate_inv obs
  unfold deduplicate
  refine ⟨?_, ?_, ?_⟩
  · rw [List.pairwise_map]
    refine ha.imp_of_mem ?_
    intro x y hx hy hne
    show dedupKey x.2 ≠ dedupKey y.2
    rw [← hb x hx, ← hb y hy]
    exact hne
  · intro p hp
    obtain ⟨kv, hkv, hk⟩ := hc p hp
    refine ⟨kv.2, List.mem_map_of_mem _ hkv, ?_⟩
    rw [← hb kv hkv, hk]
  · intro o ho
    obtain ⟨kv, hkv, rfl⟩ := List.mem_map.mp ho
    exact hd kv hkv

/-- C7 (witness): the amended theorem's coverage clause at a concrete
batch. -/
theorem deduplicate_amended_witness :
    ∃ o ∈ deduplicate [obsEmptySpan, obsNoSpan],
      dedupKey o = dedupKey obsNoSpan :=
  (deduplicate_amended [obsEmptySpan, obsNoSpan]).2.1 obsNoSpan (by decide)

/-- C7 (counterexample): an empty-list span is *present*, so the claim's
grouping by the pair `(span, standard_ref)` keeps it apart from an absent
span; the code's falsy-span key merges them, dropping the absent-span
observation entirely. -/
theorem deduplicate_key_counterexample :
    deduplicate [obsEmptySpan, obsNoSpan] = [obsEmptySpan] ∧
    dedupKeySpec obsEmptySpan ≠ dedupKeySpec obsNoSpan ∧
    deduplicateSpec [obsEmptySpan, obsNoSpan] = [obsEmptySpan, obsNoSpan] :=
  ⟨by decide, by decide, by decide⟩

end CsrService
